import Mathlib

/-!
Verification of the shared helper utilities of this repository
(`shared/utils/helpers.py`): the `Paginator` class, the expiry-time
calculator and the API-key generator, shallowly embedded in Lean.

Python integers are embedded as `Int`, Python lists as `List`, and
`datetime` instants as integer second counts, so that `timedelta(days=d)`
is `d * 86400` seconds and `timedelta(hours=h)` is `h * 3600` seconds.
Python list slicing with the implicit unit step is modelled by `pySlice`.
-/

/-- Normalisation of one slice bound, as Python list slicing does for a
unit step: a negative index counts from the end of the list (clamped
below at 0), a nonnegative index is clamped above at the length. -/
def pyIndex (n : Nat) (i : Int) : Nat :=
  if i < 0 then ((n : Int) + i).toNat else min i.toNat n

/-- The Python list slice `l[start:stop]` with the implicit unit step:
the elements at positions `pyIndex start ≤ j < pyIndex stop`. -/
def pySlice {α : Type} (l : List α) (start stop : Int) : List α :=
  (l.take (pyIndex l.length stop)).drop (pyIndex l.length start)

/-- Truthiness of an `Optional[int]` in Python: `if x:` is taken exactly
when `x` is neither `None` nor `0`. -/
def intTruthy (x : Option Int) : Bool :=
  match x with
  | none => false
  | some v => v != 0

/-- Python `timedelta(days=d)` measured in seconds. -/
def timedeltaDays (d : Int) : Int := d * 86400

/-- Python `timedelta(hours=h)` measured in seconds. -/
def timedeltaHours (h : Int) : Int := h * 3600

/-- Embedding of `get_expiry_time(days, hours)` from `shared/utils/helpers.py`.
The current UTC instant `datetime.utcnow()` is passed explicitly as
`now` (in seconds); the two keyword arguments are `Option Int`, absent
arguments being `none`.  The source tests `if days:` and `elif hours:`,
i.e. Python truthiness, and otherwise adds the default 30 days. -/
def get_expiry_time (now : Int) (days hours : Option Int) : Int :=
  if intTruthy days then now + timedeltaDays (days.getD 0)
  else if intTruthy hours then now + timedeltaHours (hours.getD 0)
  else now + timedeltaDays 30

/-- The alphabet `string.ascii_letters + string.digits` used by
`generate_random_string`. -/
def alphabet : List Char :=
  "abcdefghijklmnopqrstuvwxyzABCDEFGHIJKLMNOPQRSTUVWXYZ0123456789".toList

/-- Embedding of `generate_random_string(length)` from `shared/utils/helpers.py`.
The cryptographically secure random source is modelled as the function
`choice`, giving for each position the index that `secrets.choice`
draws from `alphabet`. -/
def generate_random_string (length : Nat) (choice : Nat → Fin alphabet.length) : String :=
  String.mk ((List.range length).map (fun i => alphabet.get (choice i)))

/-- Embedding of `generate_api_key()` from `shared/utils/helpers.py`: the constant
tag `"aimpk_"` followed by `generate_random_string(64)`. -/
def generate_api_key (choice : Nat → Fin alphabet.length) : String :=
  "aimpk_" ++ generate_random_string 64 choice

/-- The `Paginator` value object: the stored constructor arguments and
the fields computed by `Paginator.__init__`. -/
structure Paginator (α : Type) where
  all_items : List α
  page : Int
  page_size : Int
  total : Nat
  total_pages : Int
  items : List α

/-- Embedding of `Paginator.__init__`: stores the inputs, computes
`total = len(items)`,
`total_pages = (total + page_size - 1) // page_size` (Python `//` is
floor division, `Int.fdiv`), and slices `items[start:end]` with
`start = (page - 1) * page_size` and `end = start + page_size`. -/
def Paginator.init {α : Type} (items : List α) (page page_size : Int) : Paginator α :=
  { all_items := items
    page := page
    page_size := page_size
    total := items.length
    total_pages := Int.fdiv ((items.length : Int) + page_size - 1) page_size
    items := pySlice items ((page - 1) * page_size) ((page - 1) * page_size + page_size) }

/-- The `has_next` property: `page < total_pages`. -/
def Paginator.has_next {α : Type} (p : Paginator α) : Bool :=
  decide (p.page < p.total_pages)

/-- The `has_prev` property: `page > 1`. -/
def Paginator.has_prev {α : Type} (p : Paginator α) : Bool :=
  decide (p.page > 1)

lemma pyIndex_of_nonneg (n : Nat) (i : Int) (h : 0 ≤ i) :
    pyIndex n i = min i.toNat n := by
  unfold pyIndex
  rw [if_neg (not_lt.mpr h)]

/-- For nonnegative bounds Python slicing is take-then-drop. -/
lemma pySlice_of_nonneg {α : Type} (l : List α) (a b : Int)
    (ha : 0 ≤ a) (hb : 0 ≤ b) :
    pySlice l a b = (l.take b.toNat).drop a.toNat := by
  unfold pySlice
  rw [pyIndex_of_nonneg _ _ ha, pyIndex_of_nonneg _ _ hb]
  have h1 : l.take (min b.toNat l.length) = l.take b.toNat := by
    rcases le_total b.toNat l.length with h | h
    · rw [min_eq_left h]
    · rw [min_eq_right h, List.take_length, List.take_of_length_le h]
  rw [h1]
  rcases le_total a.toNat l.length with h | h
  · rw [min_eq_left h]
  · have hlen : (l.take b.toNat).length ≤ l.length := by
      rw [List.length_take]
      exact min_le_right _ _
    rw [min_eq_right h, List.drop_eq_nil_of_le hlen,
      List.drop_eq_nil_of_le (le_trans hlen h)]

/-- The page slice, in `Nat` terms: drop the elements of the earlier
pages, then take one page. -/
lemma Paginator.items_eq_drop_take {α : Type} (l : List α) (page ps : Int)
    (hp : 1 ≤ page) (hs : 1 ≤ ps) :
    (Paginator.init l page ps).items
      = (l.drop ((page - 1) * ps).toNat).take ps.toNat := by
  have ha : 0 ≤ (page - 1) * ps := mul_nonneg (by omega) (by omega)
  have hb : 0 ≤ (page - 1) * ps + ps := by omega
  show pySlice l ((page - 1) * ps) ((page - 1) * ps + ps) = _
  rw [pySlice_of_nonneg l _ _ ha hb, List.drop_take]
  congr 1
  omega

/-- The field `total_pages`, in `Nat` terms: `(total + s - 1) / s` in `Nat`
division, where `s = page_size.toNat`. -/
lemma Paginator.total_pages_eq {α : Type} (l : List α) (page ps : Int)
    (hs : 1 ≤ ps) :
    (Paginator.init l page ps).total_pages
      = ((l.length + ps.toNat - 1) / ps.toNat : Nat) := by
  show Int.fdiv ((l.length : Int) + ps - 1) ps = _
  rw [Int.fdiv_eq_ediv _ (by omega), Int.natCast_div]
  have h1 : ((l.length + ps.toNat - 1 : Nat) : Int) = (l.length : Int) + ps - 1 := by
    omega
  have h2 : ((ps.toNat : Nat) : Int) = ps := by omega
  rw [h1, h2]

/-- The quotient `(N + s - 1) / s` is an upper bound for `N / s`: `N` elements fit in
that many pages of size `s`. -/
lemma le_tp_mul (N s : Nat) (hs : 1 ≤ s) : N ≤ ((N + s - 1) / s) * s := by
  by_contra hcon
  push_neg at hcon
  have hexp : ((N + s - 1) / s + 1) * s = ((N + s - 1) / s) * s + s := by ring
  have hstep : ((N + s - 1) / s + 1) * s ≤ N + s - 1 := by omega
  have hle := (Nat.le_div_iff_mul_le (show 0 < s by omega)).mpr hstep
  omega

/-- The quotient `(N + s - 1) / s` in `Nat` arithmetic is the rational ceiling
`⌈N / s⌉`. -/
lemma ceil_nat_div (N s : Nat) (hs : 1 ≤ s) :
    (((N + s - 1) / s : Nat) : Int) = ⌈(N : ℚ) / (s : ℚ)⌉ := by
  have hs0 : (0 : ℚ) < (s : ℚ) := by exact_mod_cast hs
  have hub : N ≤ ((N + s - 1) / s) * s := le_tp_mul N s hs
  have hlb : ((N + s - 1) / s) * s ≤ N + s - 1 := Nat.div_mul_le_self _ _
  have hubq : (N : ℚ) ≤ (((N + s - 1) / s : Nat) : ℚ) * (s : ℚ) := by
    exact_mod_cast hub
  have hlbq : (((N + s - 1) / s : Nat) : ℚ) * (s : ℚ) < (N : ℚ) + (s : ℚ) := by
    exact_mod_cast (show ((N + s - 1) / s) * s < N + s by omega)
  symm
  rw [Int.ceil_eq_iff]
  constructor
  · rw [Int.cast_natCast, lt_div_iff₀ hs0]
    nlinarith [hlbq]
  · rw [Int.cast_natCast, div_le_iff₀ hs0]
    exact hubq

/-- Claim C1: for every list, every `page ≥ 1` and every
`page_size ≥ 1`, `Paginator.__init__` sets `items` to the Python slice
`items[start:end]` with `start = (page - 1) * page_size` and
`end = start + page_size`; this slice equals dropping `start` elements
and taking at most `page_size`, and a start position at or beyond the
length of the input yields the empty list rather than an error. -/
theorem C1_paginator_slice {α : Type} (l : List α) (page ps : Int)
    (hp : 1 ≤ page) (hs : 1 ≤ ps) :
    (Paginator.init l page ps).items
        = pySlice l ((page - 1) * ps) ((page - 1) * ps + ps)
      ∧ (Paginator.init l page ps).items
        = (l.drop ((page - 1) * ps).toNat).take ps.toNat
      ∧ ((l.length : Int) ≤ (page - 1) * ps →
          (Paginator.init l page ps).items = []) := by
  refine ⟨rfl, Paginator.items_eq_drop_take l page ps hp hs, ?_⟩
  intro hlen
  rw [Paginator.items_eq_drop_take l page ps hp hs,
    List.drop_eq_nil_of_le (by omega), List.take_nil]

/-- Witness for C1 at `items = [1..10]`, `page = 2`, `page_size = 3`. -/
theorem C1_paginator_slice_witness :
    (Paginator.init [1,2,3,4,5,6,7,8,9,10] 2 3).items
        = pySlice [1,2,3,4,5,6,7,8,9,10] ((2 - 1) * 3) ((2 - 1) * 3 + 3)
      ∧ (Paginator.init [1,2,3,4,5,6,7,8,9,10] 2 3).items
        = ([1,2,3,4,5,6,7,8,9,10].drop (((2 : Int) - 1) * 3).toNat).take (3 : Int).toNat
      ∧ ((([1,2,3,4,5,6,7,8,9,10] : List Nat).length : Int) ≤ (2 - 1) * 3 →
          (Paginator.init [1,2,3,4,5,6,7,8,9,10] 2 3).items = []) :=
  C1_paginator_slice [1,2,3,4,5,6,7,8,9,10] 2 3 (by decide) (by decide)

/-- Claim C2: for every list of length `N` and every `page_size ≥ 1`,
the Paginator has `total = N` and `total_pages = ⌈N / page_size⌉`; in
particular `total_pages = 0` when `N = 0`. -/
theorem C2_total_pages_ceil {α : Type} (l : List α) (page ps : Int)
    (hs : 1 ≤ ps) :
    (Paginator.init l page ps).total = l.length
      ∧ (Paginator.init l page ps).total_pages = ⌈(l.length : ℚ) / ((ps : ℤ) : ℚ)⌉
      ∧ (l.length = 0 → (Paginator.init l page ps).total_pages = 0) := by
  have hcast : ((ps.toNat : ℕ) : ℚ) = ((ps : ℤ) : ℚ) := by
    have h : ((ps.toNat : ℕ) : ℤ) = ps := by omega
    calc ((ps.toNat : ℕ) : ℚ) = (((ps.toNat : ℕ) : ℤ) : ℚ) := by push_cast; ring
      _ = ((ps : ℤ) : ℚ) := by rw [h]
  refine ⟨rfl, ?_, ?_⟩
  · rw [Paginator.total_pages_eq l page ps hs,
      ceil_nat_div l.length ps.toNat (by omega), hcast]
  · intro h0
    rw [Paginator.total_pages_eq l page ps hs, h0]
    rw [Nat.div_eq_of_lt (by omega)]
    rfl

/-- Witness for C2 at `items = [7,8,9]`, `page = 1`, `page_size = 2`. -/
theorem C2_total_pages_ceil_witness :
    (Paginator.init [7,8,9] 1 2).total = ([7,8,9] : List Nat).length
      ∧ (Paginator.init [7,8,9] 1 2).total_pages
          = ⌈((([7,8,9] : List Nat).length : ℕ) : ℚ) / (((2 : ℤ) : ℤ) : ℚ)⌉
      ∧ (([7,8,9] : List Nat).length = 0 → (Paginator.init [7,8,9] 1 2).total_pages = 0) :=
  C2_total_pages_ceil [7,8,9] 1 2 (by decide)

/-- Claim C3 counterexample: with `days = 0` and `hours = 5` both
supplied, `get_expiry_time` applies the hours offset (the source tests
`if days:`, and `0` is falsy in Python), so the result is
`now + 5 * 3600` seconds and not `now + 0 days` as the claim requires
when `days` wins for every supplied integer value. -/
theorem C3_counterexample :
    get_expiry_time 0 (some 0) (some 5) = 18000
      ∧ get_expiry_time 0 (some 0) (some 5) ≠ 0 + timedeltaDays 0 := by
  constructor
  · decide
  · decide

/-- Claim C3 (amended): if neither `days` nor `hours` is given the
result is `now` plus 30 days; a supplied *nonzero* `days` takes
precedence over any `hours`; but a supplied `days = 0` is falsy and
behaves as if absent: then a nonzero `hours` applies, and otherwise
the 30-day default applies. -/
theorem C3_expiry_amended (now : Int) (days hours : Option Int) :
    (days = none → hours = none →
        get_expiry_time now days hours = now + timedeltaDays 30)
      ∧ (∀ d, days = some d → d ≠ 0 →
          get_expiry_time now days hours = now + timedeltaDays d)
      ∧ (days = none ∨ days = some 0 → ∀ h, hours = some h → h ≠ 0 →
          get_expiry_time now days hours = now + timedeltaHours h)
      ∧ (days = none ∨ days = some 0 → hours = none ∨ hours = some 0 →
          get_expiry_time now days hours = now + timedeltaDays 30) := by
  refine ⟨?_, ?_, ?_, ?_⟩
  · rintro rfl rfl
    rfl
  · rintro d rfl hd
    simp [get_expiry_time, intTruthy, hd]
  · rintro hd h rfl hh
    rcases hd with rfl | rfl <;> simp [get_expiry_time, intTruthy, hh]
  · rintro hd hh
    rcases hd with rfl | rfl <;> rcases hh with rfl | rfl <;>
      simp [get_expiry_time, intTruthy]

/-- Witness for the amended C3 at `now = 0`, `days = 0`, `hours = 5`:
the hours offset applies. -/
theorem C3_expiry_amended_witness :
    get_expiry_time 0 (some 0) (some 5) = 0 + timedeltaHours 5 :=
  (C3_expiry_amended 0 (some 0) (some 5)).2.2.1 (Or.inr rfl) 5 rfl (by decide)

/-- Claim C4 counterexample: for the empty list with `page = 2 ≥ 1`
and `page_size = 1 ≥ 1`, `has_prev` is `true` (the source computes
`page > 1` without consulting `total`), not `false` as claimed. -/
theorem C4_counterexample :
    (1 : Int) ≤ 2 ∧ (1 : Int) ≤ 1
      ∧ (Paginator.init ([] : List Nat) 2 1).has_prev = true := by
  refine ⟨by decide, by decide, by decide⟩

/-- Claim C4 (amended): for the empty list, every `page ≥ 1` and every
`page_size ≥ 1`: `total_pages = 0`, `items` is empty, `has_next` is
`false`, and `has_prev` is `false` exactly when `page = 1` (for
`page > 1` it is `true` despite the empty input). -/
theorem C4_empty_amended {α : Type} (page ps : Int) (hp : 1 ≤ page) (hs : 1 ≤ ps) :
    (Paginator.init ([] : List α) page ps).total_pages = 0
      ∧ (Paginator.init ([] : List α) page ps).items = []
      ∧ (Paginator.init ([] : List α) page ps).has_next = false
      ∧ ((Paginator.init ([] : List α) page ps).has_prev = false ↔ page = 1) := by
  have htp := Paginator.total_pages_eq ([] : List α) page ps hs
  have h0 : (([] : List α).length + ps.toNat - 1) / ps.toNat = 0 :=
    Nat.div_eq_of_lt (by simp only [List.length_nil]; omega)
  refine ⟨?_, ?_, ?_, ?_⟩
  · rw [htp, h0]
    rfl
  · rw [Paginator.items_eq_drop_take _ page ps hp hs, List.drop_nil, List.take_nil]
  · refine decide_eq_false ?_
    show ¬ (page < (Paginator.init ([] : List α) page ps).total_pages)
    rw [htp, h0]
    omega
  · show decide (page > 1) = false ↔ _
    rw [decide_eq_false_iff_not]
    omega

/-- Witness for the amended C4 at `page = 1`, `page_size = 3`. -/
theorem C4_empty_amended_witness :
    (Paginator.init ([] : List Nat) 1 3).total_pages = 0
      ∧ (Paginator.init ([] : List Nat) 1 3).items = []
      ∧ (Paginator.init ([] : List Nat) 1 3).has_next = false
      ∧ ((Paginator.init ([] : List Nat) 1 3).has_prev = false ↔ (1 : Int) = 1) :=
  C4_empty_amended 1 3 (by decide) (by decide)

/-- Claim C10: constructing with `page = 0` (an open question in the
spec) always yields empty `items`: the slice runs from the negative
start index `-page_size` to end index `0`, which Python slicing turns
into the empty sequence. -/
theorem C10_page_zero {α : Type} (l : List α) (ps : Int) (hs : 1 ≤ ps) :
    (Paginator.init l 0 ps).items = [] := by
  show pySlice l ((0 - 1) * ps) ((0 - 1) * ps + ps) = []
  have hstop : ((0 : Int) - 1) * ps + ps = 0 := by ring
  rw [hstop]
  unfold pySlice
  have h0 : pyIndex l.length 0 = 0 := by
    unfold pyIndex
    rw [if_neg (by omega)]
    simp
  rw [h0, List.take_zero, List.drop_nil]

/-- Witness for C10 at `items = [1,2,3]`, `page_size = 5`. -/
theorem C10_page_zero_witness : (Paginator.init [1,2,3] 0 5).items = [] :=
  C10_page_zero [1,2,3] 5 (by decide)

/-- Claim C6: for every list, every `page_size ≥ 1` and every
`page > total_pages`, the Paginator has empty `items` and `has_next`
is `false`. -/
theorem C6_beyond_last_page {α : Type} (l : List α) (page ps : Int)
    (hs : 1 ≤ ps)
    (hgt : (Paginator.init l page ps).total_pages < page) :
    (Paginator.init l page ps).items = []
      ∧ (Paginator.init l page ps).has_next = false := by
  obtain ⟨q, hq⟩ : ∃ q : ℕ, (l.length + ps.toNat - 1) / ps.toNat = q := ⟨_, rfl⟩
  have htp : (Paginator.init l page ps).total_pages = (q : ℤ) := by
    rw [Paginator.total_pages_eq l page ps hs, hq]
  have hqN : l.length ≤ q * ps.toNat := by
    rw [← hq]
    exact le_tp_mul _ _ (by omega)
  have hgt' : (q : ℤ) < page := by
    rw [htp] at hgt
    exact hgt
  clear hq htp
  have hp1 : 1 ≤ page := by omega
  constructor
  · rw [Paginator.items_eq_drop_take l page ps hp1 hs]
    have hmul : (q : ℤ) * ps ≤ (page - 1) * ps :=
      mul_le_mul_of_nonneg_right (by omega) (by omega)
    have hcast : ((q * ps.toNat : ℕ) : ℤ) = (q : ℤ) * ps := by
      push_cast
      have h2 : ((ps.toNat : ℕ) : ℤ) = ps := by omega
      rw [h2]
    have hdrop : l.length ≤ ((page - 1) * ps).toNat := by omega
    rw [List.drop_eq_nil_of_le hdrop, List.take_nil]
  · exact decide_eq_false (not_lt.mpr hgt.le)

/-- Witness for C6 at `items = [1,2,3]`, `page = 5`, `page_size = 2`
(`total_pages = 2 < 5`). -/
theorem C6_beyond_last_page_witness :
    (Paginator.init [1,2,3] 5 2).items = []
      ∧ (Paginator.init [1,2,3] 5 2).has_next = false :=
  C6_beyond_last_page [1,2,3] 5 2 (by decide) (by decide)

/-- Claim C7 counterexample: at `page = 0` (the claim ranges over every
integer `page`) with the empty list and `page_size = 1`, `has_prev` is
`false` although `page ≠ 1`, so `has_prev = false` is not equivalent
to `page = 1`. -/
theorem C7_counterexample :
    (Paginator.init ([] : List Nat) 0 1).has_prev = false
      ∧ ((0 : Int) ≠ 1) := by
  refine ⟨by decide, by decide⟩

/-- Claim C7 (amended): for every list, every integer `page` and every
`page_size ≥ 1`: `has_prev` is `false` iff `page ≤ 1` (for pages `≥ 1`
this means `page = 1`), and `has_next` is `false` iff
`page ≥ total_pages`. -/
theorem C7_nav_amended {α : Type} (l : List α) (page ps : Int)
    (hs : 1 ≤ ps) :
    ((Paginator.init l page ps).has_prev = false ↔ page ≤ 1)
      ∧ ((Paginator.init l page ps).has_next = false
          ↔ (Paginator.init l page ps).total_pages ≤ page) := by
  constructor
  · show decide (page > 1) = false ↔ _
    rw [decide_eq_false_iff_not]
    exact not_lt
  · show decide (page < (Paginator.init l page ps).total_pages) = false ↔ _
    rw [decide_eq_false_iff_not]
    exact not_lt

/-- Witness for the amended C7 at `items = [1,2,3]`, `page = 2`,
`page_size = 2`. -/
theorem C7_nav_amended_witness :
    ((Paginator.init [1,2,3] 2 2).has_prev = false ↔ (2 : Int) ≤ 1)
      ∧ ((Paginator.init [1,2,3] 2 2).has_next = false
          ↔ (Paginator.init [1,2,3] 2 2).total_pages ≤ 2) :=
  C7_nav_amended [1,2,3] 2 2 (by decide)

/-- Claim C5: for every non-empty list of length `N`, `page_size ≥ 1`
and `page` in `[1, total_pages]`: pages before the last are full
(`len(items) = page_size`) and the last page holds the remainder
(`len(items) = N - (total_pages - 1) * page_size`). -/
theorem C5_page_lengths {α : Type} (l : List α) (page ps : Int)
    (hne : l ≠ []) (hs : 1 ≤ ps) (hp1 : 1 ≤ page)
    (hple : page ≤ (Paginator.init l page ps).total_pages) :
    (page < (Paginator.init l page ps).total_pages →
        ((Paginator.init l page ps).items.length : Int) = ps)
      ∧ (page = (Paginator.init l page ps).total_pages →
          ((Paginator.init l page ps).items.length : Int)
            = (l.length : Int) - ((Paginator.init l page ps).total_pages - 1) * ps) := by
  obtain ⟨q, hq⟩ : ∃ q : ℕ, (l.length + ps.toNat - 1) / ps.toNat = q := ⟨_, rfl⟩
  have htp : (Paginator.init l page ps).total_pages = (q : ℤ) := by
    rw [Paginator.total_pages_eq l page ps hs, hq]
  have hqub : q * ps.toNat ≤ l.length + ps.toNat - 1 := by
    rw [← hq]
    exact Nat.div_mul_le_self _ _
  have hqlb : l.length ≤ q * ps.toNat := by
    rw [← hq]
    exact le_tp_mul _ _ (by omega)
  clear hq
  have hlen : (Paginator.init l page ps).items.length
      = min ps.toNat (l.length - ((page - 1) * ps).toNat) := by
    rw [Paginator.items_eq_drop_take l page ps hp1 hs, List.length_take,
      List.length_drop]
  have hcast : ((q * ps.toNat : ℕ) : ℤ) = (q : ℤ) * ps := by
    push_cast
    have h2 : ((ps.toNat : ℕ) : ℤ) = ps := by omega
    rw [h2]
  have hA : 0 ≤ (page - 1) * ps := mul_nonneg (by omega) (by omega)
  have hr2 : (page - 1) * ps = page * ps - ps := by ring
  constructor
  · intro hlt
    rw [htp] at hlt
    have hm : page * ps ≤ ((q : ℤ) - 1) * ps :=
      mul_le_mul_of_nonneg_right (by omega) (by omega)
    have hr : ((q : ℤ) - 1) * ps = (q : ℤ) * ps - ps := by ring
    rw [hlen]
    omega
  · intro heq
    rw [htp] at heq
    rw [hlen, htp, ← heq]
    have heqQ : page * ps = (q : ℤ) * ps := by rw [heq]
    omega

/-- Witness for C5 at `items = [1..10]`, `page = 2`, `page_size = 3`. -/
theorem C5_page_lengths_witness :
    ((2 : Int) < (Paginator.init [1,2,3,4,5,6,7,8,9,10] 2 3).total_pages →
        ((Paginator.init [1,2,3,4,5,6,7,8,9,10] 2 3).items.length : Int) = 3)
      ∧ ((2 : Int) = (Paginator.init [1,2,3,4,5,6,7,8,9,10] 2 3).total_pages →
          ((Paginator.init [1,2,3,4,5,6,7,8,9,10] 2 3).items.length : Int)
            = (([1,2,3,4,5,6,7,8,9,10] : List Nat).length : Int)
              - ((Paginator.init [1,2,3,4,5,6,7,8,9,10] 2 3).total_pages - 1) * 3) :=
  C5_page_lengths [1,2,3,4,5,6,7,8,9,10] 2 3 (by decide) (by decide) (by decide)
    (by decide)

/-- Claim C8: `generate_api_key` returns the fixed tag `"aimpk_"`
followed by exactly 64 characters drawn from the letters-and-digits
alphabet, and `generate_random_string length` returns exactly `length`
such characters, for every draw of the random source. -/
theorem C8_api_key_shape :
    (∀ choice : Nat → Fin alphabet.length,
        (generate_api_key choice).data.take 6 = "aimpk_".data
          ∧ ((generate_api_key choice).data.drop 6).length = 64
          ∧ ∀ c ∈ (generate_api_key choice).data.drop 6,
              (c.isAlpha || c.isDigit) = true)
      ∧ ∀ (length : Nat) (choice : Nat → Fin alphabet.length),
          (generate_random_string length choice).length = length
            ∧ ∀ c ∈ (generate_random_string length choice).data,
                (c.isAlpha || c.isDigit) = true := by
  have halpha : ∀ c ∈ alphabet, (c.isAlpha || c.isDigit) = true := by decide
  have hdata : ∀ (n : Nat) (choice : Nat → Fin alphabet.length),
      (generate_random_string n choice).data
        = (List.range n).map (fun i => alphabet.get (choice i)) :=
    fun _ _ => rfl
  have hmem : ∀ (n : Nat) (choice : Nat → Fin alphabet.length),
      ∀ c ∈ (generate_random_string n choice).data,
        (c.isAlpha || c.isDigit) = true := by
    intro n choice c hc
    rw [hdata] at hc
    obtain ⟨i, _, rfl⟩ := List.mem_map.mp hc
    exact halpha _ (List.get_mem alphabet _ _)
  have hlen : ∀ (n : Nat) (choice : Nat → Fin alphabet.length),
      (generate_random_string n choice).length = n := by
    intro n choice
    show ((List.range n).map _).length = n
    rw [List.length_map, List.length_range]
  have hkey : ∀ choice : Nat → Fin alphabet.length,
      (generate_api_key choice).data
        = "aimpk_".data ++ (generate_random_string 64 choice).data :=
    fun choice => String.data_append _ _
  refine ⟨fun choice => ⟨?_, ?_, ?_⟩,
    fun n choice => ⟨hlen n choice, hmem n choice⟩⟩
  · rw [hkey]
    exact List.take_left' rfl
  · rw [hkey, List.drop_left' (show ("aimpk_".data).length = 6 from rfl)]
    exact hlen 64 choice
  · rw [hkey, List.drop_left' (show ("aimpk_".data).length = 6 from rfl)]
    exact hmem 64 choice

/-- Witness for C8 with the constant draw at index 0 (the letter `a`). -/
theorem C8_api_key_shape_witness :
    ((generate_api_key (fun _ => ⟨0, by decide⟩)).data.take 6 = "aimpk_".data)
      ∧ (generate_random_string 3 (fun _ => ⟨0, by decide⟩)).length = 3
      ∧ ('a'.isAlpha || 'a'.isDigit) = true :=
  ⟨(C8_api_key_shape.1 (fun _ => ⟨0, by decide⟩)).1,
    (C8_api_key_shape.2 3 (fun _ => ⟨0, by decide⟩)).1,
    (C8_api_key_shape.2 3 (fun _ => ⟨0, by decide⟩)).2 'a' (by decide)⟩

/-- Removing one full page from the front reduces the ceiling page
count by one. -/
lemma ceil_div_pred (N s k : Nat) (hs : 1 ≤ s) (hN : 1 ≤ N)
    (h : (N + s - 1) / s = k + 1) : ((N - s) + s - 1) / s = k := by
  have hadd : ∀ m : Nat, (m + s) / s = m / s + 1 :=
    fun m => Nat.add_div_right m (by omega)
  have h1 : N + s - 1 = (N - 1) + s := by omega
  rw [h1, hadd] at h
  have hk : (N - 1) / s = k := Nat.add_right_cancel h
  rcases Nat.lt_or_ge s N with hlt | hge
  · have h2 : N - s + s - 1 = (N - s - 1) + s := by omega
    rw [h2, hadd]
    have h3 : N - 1 = (N - s - 1) + s := by omega
    rw [h3, hadd] at hk
    exact hk
  · have hNs : N - s = 0 := by omega
    rw [hNs, Nat.zero_add, Nat.div_eq_of_lt (by omega)]
    rw [Nat.div_eq_of_lt (by omega : N - 1 < s)] at hk
    exact hk

/-- Splitting a list into `⌈length / s⌉` consecutive chunks of size `s`
and flattening them gives back the list. -/
lemma chunks_flatten {α : Type} (s : Nat) (hs : 1 ≤ s) :
    ∀ (k : Nat) (l : List α), (l.length + s - 1) / s = k →
      ((List.range k).map (fun i => (l.drop (i * s)).take s)).flatten = l := by
  intro k
  induction k with
  | zero =>
    intro l hl
    have h0 : l.length = 0 := by
      by_contra hne
      have h1 : l.length + s - 1 = (l.length - 1) + s := by omega
      rw [h1, Nat.add_div_right _ (by omega)] at hl
      exact absurd hl (Nat.succ_ne_zero _)
    rw [List.eq_nil_of_length_eq_zero h0]
    rfl
  | succ k ih =>
    intro l hl
    have hN : 1 ≤ l.length := by
      by_contra hne
      have h0 : l.length = 0 := by omega
      rw [h0, Nat.zero_add, Nat.div_eq_of_lt (by omega)] at hl
      exact absurd hl.symm (Nat.succ_ne_zero _)
    rw [List.range_succ_eq_map, List.map_cons, List.flatten_cons, List.map_map]
    have hfun : ((fun i => (l.drop (i * s)).take s) ∘ Nat.succ)
        = (fun i : Nat => (((l.drop s).drop (i * s)).take s)) := by
      funext i
      show (l.drop (Nat.succ i * s)).take s = _
      rw [List.drop_drop]
      have harg : Nat.succ i * s = s + i * s := by
        rw [Nat.succ_mul]
        omega
      rw [harg]
    rw [hfun]
    have hdl : ((l.drop s).length + s - 1) / s = k := by
      rw [List.length_drop]
      exact ceil_div_pred l.length s k hs hN hl
    rw [ih (l.drop s) hdl]
    show (l.drop (0 * s)).take s ++ l.drop s = l
    rw [Nat.zero_mul, List.drop_zero, List.take_append_drop]

/-- Claim C9: for every list and every `page_size ≥ 1`, concatenating
the `items` of pages `1, 2, ..., total_pages` in order reconstructs
the original list: the pages partition the collection with no gaps,
no overlaps, and preserved order. -/
theorem C9_pages_partition {α : Type} (l : List α) (ps : Int) (hs : 1 ≤ ps) :
    ((List.range (Paginator.init l 1 ps).total_pages.toNat).map
        (fun i : Nat => (Paginator.init l ((i : Int) + 1) ps).items)).flatten = l := by
  have htn : (Paginator.init l 1 ps).total_pages.toNat
      = (l.length + ps.toNat - 1) / ps.toNat := by
    rw [Paginator.total_pages_eq l 1 ps hs, Int.toNat_natCast]
  rw [htn]
  have hfun : (fun i : Nat => (Paginator.init l ((i : Int) + 1) ps).items)
      = (fun i : Nat => (l.drop (i * ps.toNat)).take ps.toNat) := by
    funext i
    have harg : (((i : Int) + 1 - 1) * ps).toNat = i * ps.toNat := by
      have h1 : ((i : Int) + 1 - 1) * ps = ((i * ps.toNat : ℕ) : ℤ) := by
        push_cast
        have h2 : ((ps.toNat : ℕ) : ℤ) = ps := by omega
        rw [h2]
        ring
      rw [h1, Int.toNat_natCast]
    rw [Paginator.items_eq_drop_take l _ ps (by omega) hs, harg]
  rw [hfun]
  exact chunks_flatten ps.toNat (by omega) _ l rfl

/-- Witness for C9 at `items = [1,2,3,4,5]`, `page_size = 2`. -/
theorem C9_pages_partition_witness :
    ((List.range (Paginator.init [1,2,3,4,5] 1 2).total_pages.toNat).map
        (fun i : Nat => (Paginator.init [1,2,3,4,5] ((i : Int) + 1) 2).items)).flatten
      = [1,2,3,4,5] :=
  C9_pages_partition [1,2,3,4,5] 2 (by decide)

example : (Paginator.init [1,2,3,4,5,6,7,8,9,10] 2 3).items = [4,5,6] := by decide
example : (Paginator.init [1,2,3,4,5,6,7,8,9,10] 2 3).total_pages = 4 := by decide
example : (Paginator.init [1,2,3,4,5,6,7,8,9,10] 4 3).items = [10] := by decide
example : (Paginator.init [1,2,3,4,5,6,7,8,9,10] 4 3).has_next = false := by decide
example : (Paginator.init ([] : List Nat) 1 20).total_pages = 0 := by decide
example : (Paginator.init ([] : List Nat) 1 20).items = [] := by decide
